import Mathlib

/-!
Shallow embedding of `src/api/verify.py` (the license-verification endpoint)
and proofs about the claims of its specification.

The Python handler `handler.do_POST` is embedded as the pure function
`LicenseServer.do_POST`.  External effects are made explicit parameters:

* `hmacHex : String → String` models the fixed-secret primitive
  `lambda msg: hmac.new(SECRET_KEY, msg.encode(), hashlib.sha256).hexdigest()`
  (the secret is a process-constant environment variable, so the whole
  keyed function is one opaque parameter; its output is a hex digest and
  hence ASCII);
* `fmtDate : Int → String` models the timezone-dependent
  `datetime.fromtimestamp(t).strftime` date rendering used only inside the
  expiry message;
* `urlSet, keySet : Bool` model `bool(SUPABASE_URL)` / `bool(SUPABASE_KEY)`;
* `db? : Option (List LicenseRecord)` models `get_supabase()` together with
  the `licenses` table: `none` is the branch where `get_supabase()` returns
  `None` (missing configuration or failed client construction);
* `logs : List VerifyLogEntry` models the `verify_logs` table and
  `logFails : Bool` models whether the insert into it raises (the code
  swallows that exception);
* `now : Int` models `int(time.time())` and `ip : String` the client address.

Python exceptions are modelled with `Except String`; the broad
`except Exception` handler of the source corresponds to `wrap500`.
-/

namespace LicenseServer

/-! ## Python string primitives, modelled at the character-list level -/

/-- Whitespace test used to model Python `str.strip()` (restricted to the
ASCII whitespace characters, which is what the proofs evaluate on). -/
def wsChar (c : Char) : Bool := c.isWhitespace

/-- Strip whitespace from both ends of a character list. -/
def stripL (cs : List Char) : List Char :=
  ((cs.dropWhile wsChar).reverse.dropWhile wsChar).reverse

/-- Model of Python `str.strip()`. -/
def pyStrip (s : String) : String := ⟨stripL s.data⟩

/-- Helper for splitting on a separator character: returns the current
segment being accumulated and the list of later segments. -/
def splitSepAux (sep : Char) : List Char → List Char × List (List Char)
  | [] => ([], [])
  | c :: cs =>
      let r := splitSepAux sep cs
      if c = sep then ([], r.1 :: r.2) else (c :: r.1, r.2)

/-- Split a character list on a separator character; like Python
`str.split(sep)` for a one-character separator, the result always has at
least one (possibly empty) segment. -/
def splitSep (sep : Char) (cs : List Char) : List (List Char) :=
  (splitSepAux sep cs).1 :: (splitSepAux sep cs).2

/-- Model of Python `s.split(sep)` for a one-character separator. -/
def pySplit (sep : Char) (s : String) : List String :=
  (splitSep sep s.data).map (fun cs => ⟨cs⟩)

/-- Interleave a separator character between segments (`joinSep`). -/
def joinSep (sep : Char) : List (List Char) → List Char
  | [] => []
  | [x] => x
  | x :: y :: ys => x ++ sep :: joinSep sep (y :: ys)

/-- Model of Python `sep.join(l)` for a one-character separator. -/
def pyJoin (sep : Char) (l : List String) : String :=
  ⟨joinSep sep (l.map String.data)⟩

/-- Digit run accepted by Python `int(str)`: decimal digits with single
underscores allowed between digits.  `acc` is the value read so far. -/
def digitsCore (acc : Nat) : List Char → Option Nat
  | [] => some acc
  | c :: cs =>
      if c.isDigit then digitsCore (10 * acc + (c.toNat - 48)) cs
      else if c = '_' then
        match cs with
        | c2 :: cs2 =>
            if c2.isDigit then digitsCore (10 * acc + (c2.toNat - 48)) cs2
            else none
        | [] => none
      else none

/-- Parse a non-empty digit run (with Python's underscore rule). -/
def parseDigits : List Char → Option Nat
  | [] => none
  | c :: cs => if c.isDigit then digitsCore (c.toNat - 48) cs else none

/-- Model of Python `int(s)` on a string: strip whitespace, optional sign,
then a decimal digit run (ASCII digits). -/
def pyIntOfString (s : String) : Option Int :=
  match stripL s.data with
  | '+' :: rest => (parseDigits rest).map (fun n => (n : Int))
  | '-' :: rest => (parseDigits rest).map (fun n => -(n : Int))
  | rest => (parseDigits rest).map (fun n => (n : Int))

/-! ## Request and record model -/

/-- JSON value found under the `timestamp` key: an integer, a string, or
absent (in which case `data.get('timestamp', 0)` supplies `0`). -/
inductive TsVal where
  | int (n : Int)
  | str (s : String)
  | absent
deriving DecidableEq, Repr

/-- Model of `int(data.get('timestamp', 0))`.  A string that is not a valid
integer literal raises `ValueError`, carried here as `Except.error` with the
CPython message text. -/
def pyInt : TsVal → Except String Int
  | .absent => .ok 0
  | .int n => .ok n
  | .str s =>
      match pyIntOfString s with
      | some n => .ok n
      | none => .error ("invalid literal for int() with base 10: '" ++ s ++ "'")

/-- The four request fields extracted by `do_POST` from the JSON body.
Absent string fields are the empty string (the `data.get(k, '')` default). -/
structure RawRequest where
  license_key : String := ""
  machine_id : String := ""
  timestamp : TsVal := .absent
  signature : String := ""
deriving DecidableEq, Repr

/-- One row of the `licenses` table, with the optional fields the code reads
through `.get`: `is_active` defaults to `False`, `machine_id` may be null,
`max_devices` defaults to `1`. -/
structure LicenseRecord where
  license_key : String
  is_active : Option Bool := none
  expire_time : Int
  machine_id : Option String := none
  max_devices : Option Int := none
  activated_at : Option Int := none
deriving DecidableEq, Repr

/-- One row of the `verify_logs` table. -/
structure VerifyLogEntry where
  license_key : String
  machine_id : String
  verify_time : Int
  ip_address : String
deriving DecidableEq, Repr

/-- The JSON body sent by `send_json_response` together with its HTTP status
code.  `debug` is the extra object attached only by the
database-misconfiguration 500 response. -/
structure Verdict where
  valid : Bool
  status : Int
  message : String
  expire_time : Option Int := none
  days_remaining : Option Int := none
  debug : Option (Bool × Bool) := none
deriving DecidableEq, Repr

/-! ## Signature verification -/

/-- ASCII test on a string, as used by `hmac.compare_digest` on `str`
arguments. -/
def isAsciiStr (s : String) : Bool := s.data.all (fun c => c.toNat < 128)

/-- Model of `hmac.compare_digest(a, b)` on two `str` arguments: raises
`TypeError` when either side contains a non-ASCII character, otherwise
returns (constant-time) equality. -/
def compare_digest (a b : String) : Except String Bool :=
  if isAsciiStr a && isAsciiStr b then .ok (a == b)
  else .error "comparing strings with non-ASCII characters is not supported"

/-- The message signed by the client: `f"{license_key}{machine_id}{timestamp}"`
with the timestamp in decimal. -/
def sigMessage (license_key machine_id : String) (timestamp : Int) : String :=
  license_key ++ machine_id ++ toString timestamp

/-- Model of `verify_signature` (src/api/verify.py lines 51-55). -/
def verify_signature (hmacHex : String → String) (license_key machine_id : String)
    (timestamp : Int) (signature : String) : Except String Bool :=
  compare_digest (hmacHex (sigMessage license_key machine_id timestamp)) signature

/-! ## Verdicts produced by the handler -/

/-- Verdict for missing parameters (step 3 of the handler). -/
def incompleteVerdict : Verdict :=
  { valid := false, status := 400, message := "参数不完整" }

/-- Verdict for a timestamp outside the replay window; the message embeds the
absolute difference. -/
def replayVerdict (d : Int) : Verdict :=
  { valid := false, status := 400, message := "请求时间无效（时间差" ++ toString d ++ "秒）" }

/-- Verdict for a failed signature comparison. -/
def sigFailVerdict : Verdict :=
  { valid := false, status := 403, message := "签名验证失败" }

/-- Verdict when `get_supabase()` returns `None`; the body carries a `debug`
object with the presence booleans of the two configuration variables. -/
def misconfigVerdict (urlSet keySet : Bool) : Verdict :=
  { valid := false, status := 500, message := "数据库连接失败，请检查环境变量",
    debug := some (urlSet, keySet) }

/-- Verdict for an unknown license key. -/
def notFoundVerdict : Verdict :=
  { valid := false, status := 404, message := "许可证不存在" }

/-- Verdict for a disabled license. -/
def disabledVerdict : Verdict :=
  { valid := false, status := 403, message := "许可证已被禁用" }

/-- Verdict for an expired license; `d` is the rendered expiry date. -/
def expiredVerdict (d : String) : Verdict :=
  { valid := false, status := 403, message := "许可证已于 " ++ d ++ " 过期" }

/-- Verdict for the device-quota rejection; the message embeds the current
count and the maximum. -/
def quotaVerdict (n : Nat) (maxd : Int) : Verdict :=
  { valid := false, status := 403,
    message := "许可证已绑定 " ++ toString n ++ " 台设备（上限 " ++ toString maxd ++ "）" }

/-- Success verdict (step 12): `days_remaining` is
`max(0, (expire_time - current_time) // 86400)` with Python floor division. -/
def successVerdict (expire_time now : Int) : Verdict :=
  { valid := true, status := 200, message := "验证成功",
    expire_time := some expire_time,
    days_remaining := some (max 0 ((expire_time - now).fdiv 86400)) }

/-- Verdict produced by the broad `except Exception` handler; the message
embeds `str(e)`. -/
def serverErrorVerdict (e : String) : Verdict :=
  { valid := false, status := 500, message := "服务器错误: " ++ e }

/-! ## The licenses table -/

/-- Decode of the stored `machine_id` column into the device list:
`[m.strip() for m in bound_machine.split(',') if m.strip()]`. -/
def parsedMachines (s : String) : List String :=
  ((pySplit ',' s).map pyStrip).filter (fun m => m ≠ "")

/-- Devices bound to a record, as decoded by the handler (with the
`license_info.get('machine_id') or ''` null-to-empty coercion). -/
def boundOf (r : LicenseRecord) : List String :=
  parsedMachines (r.machine_id.getD "")

/-- Effective device quota of a record: `license_info.get('max_devices', 1)`. -/
def maxDevicesOf (r : LicenseRecord) : Int := r.max_devices.getD 1

/-- Model of `supabase.table('licenses').update({'machine_id': s}).eq('license_key', lk)`:
every row whose key matches is updated. -/
def updateMachines (db : List LicenseRecord) (lk s : String) : List LicenseRecord :=
  db.map (fun r => if r.license_key == lk then { r with machine_id := some s } else r)

/-- Model of the first-activation update, which also sets `activated_at`. -/
def activate (db : List LicenseRecord) (lk mid : String) (now : Int) : List LicenseRecord :=
  db.map (fun r =>
    if r.license_key == lk then { r with machine_id := some mid, activated_at := some now }
    else r)

/-! ## The handler -/

/-- Outcome of the device-binding step: either the quota rejection (carrying
the counts used in its message) or the table to continue with. -/
inductive BindOutcome where
  | reject (n : Nat) (maxd : Int)
  | proceed (db : List LicenseRecord)
deriving DecidableEq, Repr

/-- Step 10 of the handler (src/api/verify.py lines 179-203): the
device-binding decision for the fetched record `li`. -/
def bindStep (db : List LicenseRecord) (lk mid : String) (li : LicenseRecord)
    (now : Int) : BindOutcome :=
  let bound_machine := li.machine_id.getD ""
  let max_devices := maxDevicesOf li
  if bound_machine ≠ "" then
    let machines := parsedMachines bound_machine
    if mid ∈ machines then .proceed db
    else if (machines.length : Int) ≥ max_devices then .reject machines.length max_devices
    else .proceed (updateMachines db lk (pyJoin ',' (machines ++ [mid])))
  else .proceed (activate db lk mid now)

/-- Steps 6-12 of the handler: everything after the signature check.  No
further exception can escape in the model; the log-insert exception is the
one the source catches locally. -/
def afterSig (fmtDate : Int → String) (urlSet keySet : Bool) (ip lk mid : String)
    (now : Int) (db? : Option (List LicenseRecord)) (logs : List VerifyLogEntry)
    (logFails : Bool) :
    Verdict × Option (List LicenseRecord) × List VerifyLogEntry :=
  match db? with
  | none => (misconfigVerdict urlSet keySet, none, logs)
  | some db =>
      match db.find? (fun r => r.license_key == lk) with
      | none => (notFoundVerdict, some db, logs)
      | some li =>
          if li.is_active.getD false = false then (disabledVerdict, some db, logs)
          else if now > li.expire_time then
            (expiredVerdict (fmtDate li.expire_time), some db, logs)
          else
            match bindStep db lk mid li now with
            | .reject n m => (quotaVerdict n m, some db, logs)
            | .proceed db2 =>
                (successVerdict li.expire_time now, some db2,
                  if logFails then logs
                  else logs ++ [{ license_key := lk, machine_id := mid,
                                  verify_time := now, ip_address := ip }])

/-- Steps 5-12 of the handler: the signature check and everything after it.
`compare_digest` may raise (non-ASCII argument). -/
def afterWindow (hmacHex : String → String) (fmtDate : Int → String)
    (urlSet keySet : Bool) (ip lk mid : String) (t now : Int) (sig : String)
    (db? : Option (List LicenseRecord)) (logs : List VerifyLogEntry) (logFails : Bool) :
    Except String (Verdict × Option (List LicenseRecord) × List VerifyLogEntry) :=
  match verify_signature hmacHex lk mid t sig with
  | .error e => .error e
  | .ok b =>
      if b = false then .ok (sigFailVerdict, db?, logs)
      else .ok (afterSig fmtDate urlSet keySet ip lk mid now db? logs logFails)

/-- The body of `do_POST` before the broad exception handler: extraction
(where `int(...)` may raise), shape validation, replay window, then the
later stages. -/
def do_POST_checked (hmacHex : String → String) (fmtDate : Int → String)
    (urlSet keySet : Bool) (ip : String) (req : RawRequest) (now : Int)
    (db? : Option (List LicenseRecord)) (logs : List VerifyLogEntry) (logFails : Bool) :
    Except String (Verdict × Option (List LicenseRecord) × List VerifyLogEntry) :=
  match pyInt req.timestamp with
  | .error e => .error e
  | .ok t =>
      let lk := pyStrip req.license_key
      let mid := pyStrip req.machine_id
      let sig := req.signature
      if lk = "" ∨ mid = "" ∨ sig = "" then .ok (incompleteVerdict, db?, logs)
      else if |now - t| > 300 then .ok (replayVerdict |now - t|, db?, logs)
      else afterWindow hmacHex fmtDate urlSet keySet ip lk mid t now sig db? logs logFails

/-- The broad `except Exception` handler: an escaped exception becomes a 500
verdict embedding `str(e)`, with no state change. -/
def wrap500 (db? : Option (List LicenseRecord)) (logs : List VerifyLogEntry) :
    Except String (Verdict × Option (List LicenseRecord) × List VerifyLogEntry) →
    Verdict × Option (List LicenseRecord) × List VerifyLogEntry
  | .ok out => out
  | .error e => (serverErrorVerdict e, db?, logs)

/-- Model of `handler.do_POST` (src/api/verify.py lines 92-240), returning
the response verdict, the resulting `licenses` table (still `none` when the
store was unavailable) and the resulting `verify_logs` table. -/
def do_POST (hmacHex : String → String) (fmtDate : Int → String)
    (urlSet keySet : Bool) (ip : String) (req : RawRequest) (now : Int)
    (db? : Option (List LicenseRecord)) (logs : List VerifyLogEntry) (logFails : Bool) :
    Verdict × Option (List LicenseRecord) × List VerifyLogEntry :=
  wrap500 db? logs (do_POST_checked hmacHex fmtDate urlSet keySet ip req now db? logs logFails)

/-! ## Facts about the string primitives -/

/-- Rebuilding a string from its character list is the identity. -/
lemma mk_data (s : String) : (⟨s.data⟩ : String) = s := by
  cases s
  rfl

/-- The character list of a rebuilt string. -/
lemma data_mk (cs : List Char) : ((⟨cs⟩ : String) : String).data = cs := rfl

/-- A string is empty iff its character list is. -/
lemma string_eq_empty_iff (s : String) : s = "" ↔ s.data = [] := by
  constructor
  · intro h
    rw [h]
  · intro h
    cases s with
    | mk d =>
        simp only at h
        rw [h]

/-- A string is nonempty iff its character list is. -/
lemma string_ne_empty_iff (s : String) : s ≠ "" ↔ s.data ≠ [] :=
  not_congr (string_eq_empty_iff s)

/-- Concatenation acts on the character lists. -/
lemma data_append (a b : String) : (a ++ b).data = a.data ++ b.data := by
  cases a
  cases b
  rfl

/-- Length bound of `dropWhile`. -/
lemma length_dropWhile_le' (p : Char → Bool) (l : List Char) :
    (l.dropWhile p).length ≤ l.length := by
  induction l with
  | nil => simp
  | cons c cs ih =>
      rw [List.dropWhile_cons]
      by_cases h : p c
      · rw [if_pos h]
        simp only [List.length_cons]
        omega
      · rw [if_neg h]

/-- Dropping a prefix keeps membership. -/
lemma mem_of_mem_dropWhile {p : Char → Bool} {c : Char} {cs : List Char}
    (h : c ∈ cs.dropWhile p) : c ∈ cs := by
  induction cs with
  | nil => simp at h
  | cons d ds ih =>
      rw [List.dropWhile_cons] at h
      by_cases hd : p d
      · rw [if_pos hd] at h
        exact List.mem_cons_of_mem _ (ih h)
      · rw [if_neg hd] at h
        exact h

/-- Stripping keeps membership. -/
lemma mem_stripL {c : Char} {cs : List Char} (h : c ∈ stripL cs) : c ∈ cs := by
  simp only [stripL, List.mem_reverse] at h
  have h2 : c ∈ (cs.dropWhile wsChar).reverse := mem_of_mem_dropWhile h
  rw [List.mem_reverse] at h2
  exact mem_of_mem_dropWhile h2

/-- `dropWhile` is idempotent. -/
lemma dropWhile_idemp (p : Char → Bool) (l : List Char) :
    (l.dropWhile p).dropWhile p = l.dropWhile p := by
  induction l with
  | nil => rfl
  | cons c cs ih =>
      by_cases h : p c
      · simp [List.dropWhile_cons, h, ih]
      · simp [List.dropWhile_cons, h]

/-- The suffix dropped by `dropWhile`. -/
lemma dropWhile_is_suffix (p : Char → Bool) (l : List Char) :
    ∃ u, u ++ l.dropWhile p = l := by
  induction l with
  | nil => exact ⟨[], rfl⟩
  | cons c cs ih =>
      by_cases h : p c
      · obtain ⟨u, hu⟩ := ih
        exact ⟨c :: u, by simp [List.dropWhile_cons, h, hu]⟩
      · exact ⟨[], by simp [List.dropWhile_cons, h]⟩

/-- A prefix of a list with no removable head is itself head-stable. -/
lemma prefix_dropWhile_self (p : Char → Bool) {l b : List Char}
    (hl : l.dropWhile p = l) (hb : ∃ t, b ++ t = l) : b.dropWhile p = b := by
  cases b with
  | nil => rfl
  | cons c t =>
      obtain ⟨r, hr⟩ := hb
      have hc : p c = false := by
        by_contra hc
        rw [Bool.not_eq_false] at hc
        rw [← hr, List.cons_append, List.dropWhile_cons, if_pos hc] at hl
        have hlen := congrArg List.length hl
        have hle := length_dropWhile_le' p (t ++ r)
        rw [List.length_cons] at hlen
        omega
      rw [List.dropWhile_cons, if_neg (by simp [hc])]

/-- Stripping is idempotent. -/
lemma stripL_idem (cs : List Char) : stripL (stripL cs) = stripL cs := by
  have hA : (cs.dropWhile wsChar).dropWhile wsChar = cs.dropWhile wsChar :=
    dropWhile_idemp _ _
  have hB1 : ((cs.dropWhile wsChar).reverse.dropWhile wsChar).dropWhile wsChar
      = (cs.dropWhile wsChar).reverse.dropWhile wsChar := dropWhile_idemp _ _
  have hpre : ∃ t,
      ((cs.dropWhile wsChar).reverse.dropWhile wsChar).reverse ++ t = cs.dropWhile wsChar := by
    obtain ⟨u, hu⟩ := dropWhile_is_suffix wsChar (cs.dropWhile wsChar).reverse
    refine ⟨u.reverse, ?_⟩
    have := congrArg List.reverse hu
    simpa using this
  have h1 : (((cs.dropWhile wsChar).reverse.dropWhile wsChar).reverse).dropWhile wsChar
      = ((cs.dropWhile wsChar).reverse.dropWhile wsChar).reverse :=
    prefix_dropWhile_self wsChar hA hpre
  show stripL (((cs.dropWhile wsChar).reverse.dropWhile wsChar).reverse) = _
  unfold stripL
  rw [h1, List.reverse_reverse, hB1]

/-- Idempotence of the Python strip model. -/
lemma pyStrip_idem (s : String) : pyStrip (pyStrip s) = pyStrip s := by
  simp [pyStrip, data_mk, stripL_idem]

/-- No segment produced by `splitSepAux` contains the separator. -/
lemma splitSepAux_not_mem (sep : Char) (cs : List Char) :
    sep ∉ (splitSepAux sep cs).1 ∧ ∀ p ∈ (splitSepAux sep cs).2, sep ∉ p := by
  induction cs with
  | nil => simp [splitSepAux]
  | cons c cs ih =>
      by_cases h : c = sep
      · refine ⟨by simp [splitSepAux, h], ?_⟩
        intro p hp
        simp only [splitSepAux, h, if_pos rfl] at hp
        simp at hp
        rcases hp with hp | hp
        · rw [hp]; exact ih.1
        · exact ih.2 p hp
      · constructor
        · simp only [splitSepAux, if_neg h]
          intro hmem
          rcases List.mem_cons.mp hmem with h1 | h1
          · exact h h1.symm
          · exact ih.1 h1
        · intro p hp
          simp only [splitSepAux, if_neg h] at hp
          exact ih.2 p hp

/-- No segment produced by `splitSep` contains the separator. -/
lemma splitSep_not_mem (sep : Char) (cs : List Char) {p : List Char}
    (hp : p ∈ splitSep sep cs) : sep ∉ p := by
  rcases List.mem_cons.mp hp with h | h
  · rw [h]; exact (splitSepAux_not_mem sep cs).1
  · exact (splitSepAux_not_mem sep cs).2 p h

/-- `splitSepAux` walks through a separator-free chunk unchanged. -/
lemma splitSepAux_no_sep (sep : Char) :
    ∀ (x : List Char), sep ∉ x → ∀ cs,
      splitSepAux sep (x ++ cs) = (x ++ (splitSepAux sep cs).1, (splitSepAux sep cs).2)
  | [], _, cs => by simp
  | c :: x, hx, cs => by
      have hc : ¬ c = sep := fun h => hx (by simp [h])
      have ih := splitSepAux_no_sep sep x (fun h => hx (by simp [h])) cs
      simp only [List.cons_append, splitSepAux, List.append_eq, ih, if_neg hc]

/-- Splitting after joining recovers the segments, when no segment contains
the separator. -/
lemma splitSep_joinSep (sep : Char) :
    ∀ (L : List (List Char)), (∀ p ∈ L, sep ∉ p) → L ≠ [] →
      splitSep sep (joinSep sep L) = L
  | [], _, h => absurd rfl h
  | [x], hx, _ => by
      have h := splitSepAux_no_sep sep x (hx x (by simp)) []
      simp only [List.append_nil] at h
      simp [splitSep, joinSep, h, splitSepAux]
  | x :: y :: ys, hmem, _ => by
      have ih := splitSep_joinSep sep (y :: ys)
        (fun p hp => hmem p (List.mem_cons_of_mem _ hp)) (by simp)
      have h := splitSepAux_no_sep sep x (hmem x (by simp)) (sep :: joinSep sep (y :: ys))
      simp only [joinSep]
      simp only [splitSep] at ih ⊢
      rw [h]
      simp only [splitSepAux, if_pos rfl]
      have h1 := congrArg (fun l => l.headI) ih
      have h2 := congrArg (fun l => l.tail) ih
      simp at h1 h2
      simp [h1, h2]

/-- Every element of the decoded device list is nonempty, stripped, and
comma-free. -/
lemma mem_parsedMachines {s m : String} (h : m ∈ parsedMachines s) :
    m ≠ "" ∧ pyStrip m = m ∧ ',' ∉ m.data := by
  unfold parsedMachines pySplit at h
  rw [List.mem_filter] at h
  obtain ⟨hmem, hne⟩ := h
  rw [List.map_map, List.mem_map] at hmem
  obtain ⟨p, hp, rfl⟩ := hmem
  refine ⟨by simpa using hne, ?_, ?_⟩
  · simp [Function.comp, pyStrip, data_mk, stripL_idem]
  · intro hc
    simp only [Function.comp, pyStrip, data_mk] at hc
    exact splitSep_not_mem ',' s.data hp (mem_stripL hc)

/-- Decoding the joined device list recovers it, when every entry is
nonempty, stripped, and comma-free. -/
lemma parsedMachines_join (L : List String)
    (hL : ∀ m ∈ L, m ≠ "" ∧ pyStrip m = m ∧ ',' ∉ m.data) (hne : L ≠ []) :
    parsedMachines (pyJoin ',' L) = L := by
  unfold parsedMachines pySplit pyJoin
  rw [data_mk]
  rw [splitSep_joinSep ',' (L.map String.data)
    (by
      intro p hp
      rw [List.mem_map] at hp
      obtain ⟨m, hm, rfl⟩ := hp
      exact (hL m hm).2.2)
    (by simpa using hne)]
  rw [List.map_map, List.map_map]
  have hmapid : L.map ((pyStrip ∘ fun cs => (⟨cs⟩ : String)) ∘ String.data) = L := by
    rw [List.map_congr_left (g := id) ?_, List.map_id]
    intro m hm
    simp [Function.comp, mk_data, (hL m hm).2.1]
  rw [hmapid]
  rw [List.filter_eq_self]
  intro m hm
  simpa using (hL m hm).1

/-- A nonempty, stripped, comma-free string decodes to the singleton device
list containing it. -/
lemma parsedMachines_singleton (m : String) (h1 : m ≠ "") (h2 : pyStrip m = m)
    (h3 : ',' ∉ m.data) : parsedMachines m = [m] := by
  have h := parsedMachines_join [m] (by simpa using ⟨h1, h2, h3⟩) (by simp)
  simpa [pyJoin, joinSep, mk_data] using h

/-- The empty stored column decodes to no devices. -/
lemma parsedMachines_empty : parsedMachines "" = [] := rfl

/-! ## Path lemmas for the handler -/

/-- A `ValueError` from `int(...)` propagates to the broad handler before any
other check runs. -/
lemma do_POST_int_error (hmacHex : String → String) (fmtDate : Int → String)
    (u k : Bool) (ip : String) (req : RawRequest) (now : Int)
    (db? : Option (List LicenseRecord)) (logs : List VerifyLogEntry) (lf : Bool)
    (e : String) (hp : pyInt req.timestamp = .error e) :
    do_POST hmacHex fmtDate u k ip req now db? logs lf = (serverErrorVerdict e, db?, logs) := by
  simp [do_POST, do_POST_checked, hp, wrap500]

/-- Shape-validation failure is terminal. -/
lemma do_POST_incomplete (hmacHex : String → String) (fmtDate : Int → String)
    (u k : Bool) (ip : String) (req : RawRequest) (now t : Int)
    (db? : Option (List LicenseRecord)) (logs : List VerifyLogEntry) (lf : Bool)
    (hp : pyInt req.timestamp = .ok t)
    (h : pyStrip req.license_key = "" ∨ pyStrip req.machine_id = "" ∨ req.signature = "") :
    do_POST hmacHex fmtDate u k ip req now db? logs lf = (incompleteVerdict, db?, logs) := by
  simp only [do_POST, do_POST_checked, hp]
  rw [if_pos h]
  rfl

/-- Replay-window failure is terminal. -/
lemma do_POST_replay (hmacHex : String → String) (fmtDate : Int → String)
    (u k : Bool) (ip : String) (req : RawRequest) (now t : Int)
    (db? : Option (List LicenseRecord)) (logs : List VerifyLogEntry) (lf : Bool)
    (hp : pyInt req.timestamp = .ok t)
    (h1 : pyStrip req.license_key ≠ "") (h2 : pyStrip req.machine_id ≠ "")
    (h3 : req.signature ≠ "") (hwin : |now - t| > 300) :
    do_POST hmacHex fmtDate u k ip req now db? logs lf = (replayVerdict |now - t|, db?, logs) := by
  simp only [do_POST, do_POST_checked, hp]
  rw [if_neg (by simp [h1, h2, h3]), if_pos hwin]
  rfl

/-- Inside the replay window the handler continues with the signature check. -/
lemma do_POST_afterWindow (hmacHex : String → String) (fmtDate : Int → String)
    (u k : Bool) (ip : String) (req : RawRequest) (now t : Int)
    (db? : Option (List LicenseRecord)) (logs : List VerifyLogEntry) (lf : Bool)
    (hp : pyInt req.timestamp = .ok t)
    (h1 : pyStrip req.license_key ≠ "") (h2 : pyStrip req.machine_id ≠ "")
    (h3 : req.signature ≠ "") (hwin : ¬ |now - t| > 300) :
    do_POST hmacHex fmtDate u k ip req now db? logs lf =
      wrap500 db? logs (afterWindow hmacHex fmtDate u k ip (pyStrip req.license_key)
        (pyStrip req.machine_id) t now req.signature db? logs lf) := by
  simp only [do_POST, do_POST_checked, hp]
  rw [if_neg (by simp [h1, h2, h3]), if_neg hwin]

/-- A failing signature comparison is terminal. -/
lemma do_POST_sigfail (hmacHex : String → String) (fmtDate : Int → String)
    (u k : Bool) (ip : String) (req : RawRequest) (now t : Int)
    (db? : Option (List LicenseRecord)) (logs : List VerifyLogEntry) (lf : Bool)
    (hp : pyInt req.timestamp = .ok t)
    (h1 : pyStrip req.license_key ≠ "") (h2 : pyStrip req.machine_id ≠ "")
    (h3 : req.signature ≠ "") (hwin : ¬ |now - t| > 300)
    (hver : verify_signature hmacHex (pyStrip req.license_key) (pyStrip req.machine_id) t
      req.signature = .ok false) :
    do_POST hmacHex fmtDate u k ip req now db? logs lf = (sigFailVerdict, db?, logs) := by
  rw [do_POST_afterWindow hmacHex fmtDate u k ip req now t db? logs lf hp h1 h2 h3 hwin]
  simp [afterWindow, hver, wrap500]

/-- An exception escaping `compare_digest` reaches the broad handler. -/
lemma do_POST_sig_error (hmacHex : String → String) (fmtDate : Int → String)
    (u k : Bool) (ip : String) (req : RawRequest) (now t : Int)
    (db? : Option (List LicenseRecord)) (logs : List VerifyLogEntry) (lf : Bool)
    (e : String) (hp : pyInt req.timestamp = .ok t)
    (h1 : pyStrip req.license_key ≠ "") (h2 : pyStrip req.machine_id ≠ "")
    (h3 : req.signature ≠ "") (hwin : ¬ |now - t| > 300)
    (hver : verify_signature hmacHex (pyStrip req.license_key) (pyStrip req.machine_id) t
      req.signature = .error e) :
    do_POST hmacHex fmtDate u k ip req now db? logs lf = (serverErrorVerdict e, db?, logs) := by
  rw [do_POST_afterWindow hmacHex fmtDate u k ip req now t db? logs lf hp h1 h2 h3 hwin]
  simp [afterWindow, hver, wrap500]

/-- A passing signature hands over to the record stage. -/
lemma do_POST_afterSig (hmacHex : String → String) (fmtDate : Int → String)
    (u k : Bool) (ip : String) (req : RawRequest) (now t : Int)
    (db? : Option (List LicenseRecord)) (logs : List VerifyLogEntry) (lf : Bool)
    (hp : pyInt req.timestamp = .ok t)
    (h1 : pyStrip req.license_key ≠ "") (h2 : pyStrip req.machine_id ≠ "")
    (h3 : req.signature ≠ "") (hwin : ¬ |now - t| > 300)
    (hver : verify_signature hmacHex (pyStrip req.license_key) (pyStrip req.machine_id) t
      req.signature = .ok true) :
    do_POST hmacHex fmtDate u k ip req now db? logs lf =
      afterSig fmtDate u k ip (pyStrip req.license_key) (pyStrip req.machine_id) now
        db? logs lf := by
  rw [do_POST_afterWindow hmacHex fmtDate u k ip req now t db? logs lf hp h1 h2 h3 hwin]
  simp [afterWindow, hver, wrap500]

/-- With the record fetched, active and unexpired, the handler's outcome is
the device-binding decision. -/
lemma do_POST_binding (hmacHex : String → String) (fmtDate : Int → String)
    (u k : Bool) (ip : String) (req : RawRequest) (now t : Int)
    (db : List LicenseRecord) (li : LicenseRecord)
    (logs : List VerifyLogEntry) (lf : Bool)
    (hp : pyInt req.timestamp = .ok t)
    (h1 : pyStrip req.license_key ≠ "") (h2 : pyStrip req.machine_id ≠ "")
    (h3 : req.signature ≠ "") (hwin : ¬ |now - t| > 300)
    (hver : verify_signature hmacHex (pyStrip req.license_key) (pyStrip req.machine_id) t
      req.signature = .ok true)
    (hfind : db.find? (fun r => r.license_key == pyStrip req.license_key) = some li)
    (hact : li.is_active.getD false = true) (hexp : ¬ now > li.expire_time) :
    do_POST hmacHex fmtDate u k ip req now (some db) logs lf =
      match bindStep db (pyStrip req.license_key) (pyStrip req.machine_id) li now with
      | .reject n m => (quotaVerdict n m, some db, logs)
      | .proceed db2 =>
          (successVerdict li.expire_time now, some db2,
            if lf then logs
            else logs ++ [{ license_key := pyStrip req.license_key,
                            machine_id := pyStrip req.machine_id,
                            verify_time := now, ip_address := ip }]) := by
  rw [do_POST_afterSig hmacHex fmtDate u k ip req now t (some db) logs lf hp h1 h2 h3 hwin hver]
  simp only [afterSig, hfind]
  rw [if_neg (by simp [hact]), if_neg hexp]

/-! ## Facts about the binding step -/

/-- An already-bound device yields no mutation. -/
lemma bindStep_mem (db : List LicenseRecord) (lk mid : String) (li : LicenseRecord)
    (now : Int) (h : mid ∈ boundOf li) : bindStep db lk mid li now = .proceed db := by
  have hbm : li.machine_id.getD "" ≠ "" := by
    intro he
    rw [boundOf, he, parsedMachines_empty] at h
    simp at h
  simp only [bindStep]
  rw [if_pos hbm, if_pos (by simpa [boundOf] using h)]

/-- A full record rejects an unbound device. -/
lemma bindStep_quota (db : List LicenseRecord) (lk mid : String) (li : LicenseRecord)
    (now : Int) (h : mid ∉ boundOf li) (hbm : li.machine_id.getD "" ≠ "")
    (hlen : ((boundOf li).length : Int) ≥ maxDevicesOf li) :
    bindStep db lk mid li now = .reject (boundOf li).length (maxDevicesOf li) := by
  simp only [bindStep]
  rw [if_pos hbm, if_neg (by simpa [boundOf] using h), if_pos (by simpa [boundOf] using hlen)]
  rfl

/-- A record with a free slot appends the new device. -/
lemma bindStep_append (db : List LicenseRecord) (lk mid : String) (li : LicenseRecord)
    (now : Int) (h : mid ∉ boundOf li) (hbm : li.machine_id.getD "" ≠ "")
    (hlen : ¬ ((boundOf li).length : Int) ≥ maxDevicesOf li) :
    bindStep db lk mid li now =
      .proceed (updateMachines db lk (pyJoin ',' (boundOf li ++ [mid]))) := by
  simp only [bindStep]
  rw [if_pos hbm, if_neg (by simpa [boundOf] using h), if_neg (by simpa [boundOf] using hlen)]
  rfl

/-- An empty stored column triggers first activation. -/
lemma bindStep_empty (db : List LicenseRecord) (lk mid : String) (li : LicenseRecord)
    (now : Int) (hbm : li.machine_id.getD "" = "") :
    bindStep db lk mid li now = .proceed (activate db lk mid now) := by
  simp only [bindStep]
  rw [if_neg (by simp [hbm])]

/-- Rows of the binding update. -/
lemma mem_updateMachines {db : List LicenseRecord} {lk s : String} {r' : LicenseRecord}
    (h : r' ∈ updateMachines db lk s) :
    ∃ r ∈ db, r' = if r.license_key == lk then { r with machine_id := some s } else r := by
  rw [updateMachines, List.mem_map] at h
  obtain ⟨r, hr, hrq⟩ := h
  exact ⟨r, hr, hrq.symm⟩

/-- Rows of the activation update. -/
lemma mem_activate {db : List LicenseRecord} {lk mid : String} {now : Int}
    {r' : LicenseRecord} (h : r' ∈ activate db lk mid now) :
    ∃ r ∈ db, r' = if r.license_key == lk
      then { r with machine_id := some mid, activated_at := some now } else r := by
  rw [activate, List.mem_map] at h
  obtain ⟨r, hr, hrq⟩ := h
  exact ⟨r, hr, hrq.symm⟩

/-- Core invariant argument: if every record respects its device quota (and
quotas are at least one, keys are unique, and the requesting machine id is
comma-free), then any table the binding step proceeds with still respects
the quota. -/
lemma quota_inv_of_bindStep (db : List LicenseRecord) (lk mid : String)
    (li : LicenseRecord) (now : Int)
    (hinv : ∀ r ∈ db, ((boundOf r).length : Int) ≤ maxDevicesOf r ∧ 1 ≤ maxDevicesOf r)
    (huniq : ∀ a ∈ db, ∀ b ∈ db, a.license_key = b.license_key → a = b)
    (hmid : ',' ∉ mid.data) (hmidne : mid ≠ "") (hmids : pyStrip mid = mid)
    (hfind : db.find? (fun r => r.license_key == lk) = some li) :
    ∀ db2, bindStep db lk mid li now = .proceed db2 →
      ∀ r ∈ db2, ((boundOf r).length : Int) ≤ maxDevicesOf r := by
  intro db2 hbs r' hr'
  by_cases hbm : li.machine_id.getD "" = ""
  · rw [bindStep_empty db lk mid li now hbm] at hbs
    injection hbs with hdb2
    subst hdb2
    obtain ⟨r, hrdb, hreq⟩ := mem_activate hr'
    by_cases hk : r.license_key == lk
    · rw [if_pos hk] at hreq
      subst hreq
      have hsing : parsedMachines mid = [mid] := parsedMachines_singleton mid hmidne hmids hmid
      have h1le := (hinv r hrdb).2
      simp only [boundOf, maxDevicesOf, Option.getD_some] at h1le ⊢
      rw [hsing]
      simpa using h1le
    · rw [if_neg hk] at hreq
      subst hreq
      exact (hinv _ hrdb).1
  · by_cases hmem : mid ∈ boundOf li
    · rw [bindStep_mem db lk mid li now hmem] at hbs
      injection hbs with hdb2
      subst hdb2
      exact (hinv r' hr').1
    · by_cases hlen : ((boundOf li).length : Int) ≥ maxDevicesOf li
      · rw [bindStep_quota db lk mid li now hmem hbm hlen] at hbs
        exact absurd hbs (by simp)
      · rw [bindStep_append db lk mid li now hmem hbm hlen] at hbs
        injection hbs with hdb2
        subst hdb2
        obtain ⟨r, hrdb, hreq⟩ := mem_updateMachines hr'
        by_cases hk : r.license_key == lk
        · rw [if_pos hk] at hreq
          subst hreq
          have hli : li ∈ db := List.mem_of_find?_eq_some hfind
          have hlik : li.license_key = lk := by
            have := List.find?_some hfind
            simpa using this
          have hrk : r.license_key = lk := by simpa using hk
          have hrli : r = li := huniq r hrdb li hli (by rw [hrk, hlik])
          have hjoin : parsedMachines (pyJoin ',' (boundOf li ++ [mid])) = boundOf li ++ [mid] := by
            apply parsedMachines_join
            · intro m hm
              rcases List.mem_append.mp hm with hmm | hmm
              · exact mem_parsedMachines (by simpa [boundOf] using hmm)
              · simp at hmm
                subst hmm
                exact ⟨hmidne, hmids, hmid⟩
            · simp
          have hX : boundOf { r with machine_id := some (pyJoin ',' (boundOf li ++ [mid])) }
              = parsedMachines (pyJoin ',' (boundOf li ++ [mid])) := rfl
          have hM : maxDevicesOf { r with machine_id := some (pyJoin ',' (boundOf li ++ [mid])) }
              = maxDevicesOf r := rfl
          rw [hX, hM, hjoin, hrli]
          rw [List.length_append, List.length_singleton]
          push_cast
          omega
        · rw [if_neg hk] at hreq
          subst hreq
          exact (hinv _ hrdb).1

/-- Every possible verdict of the record stage. -/
lemma afterSig_verdict_cases (fmtDate : Int → String) (u k : Bool) (ip lk mid : String)
    (now : Int) (db? : Option (List LicenseRecord)) (logs : List VerifyLogEntry) (lf : Bool) :
    (afterSig fmtDate u k ip lk mid now db? logs lf).1 = misconfigVerdict u k ∨
    (afterSig fmtDate u k ip lk mid now db? logs lf).1 = notFoundVerdict ∨
    (afterSig fmtDate u k ip lk mid now db? logs lf).1 = disabledVerdict ∨
    (∃ d, (afterSig fmtDate u k ip lk mid now db? logs lf).1 = expiredVerdict d) ∨
    (∃ n m, (afterSig fmtDate u k ip lk mid now db? logs lf).1 = quotaVerdict n m) ∨
    (∃ e, (afterSig fmtDate u k ip lk mid now db? logs lf).1 = successVerdict e now) := by
  rcases db? with _ | db
  · exact Or.inl rfl
  · cases hf : db.find? (fun r => r.license_key == lk) with
    | none =>
        refine Or.inr (Or.inl ?_)
        simp only [afterSig, hf]
    | some li =>
        simp only [afterSig, hf]
        by_cases hact : li.is_active.getD false = false
        · rw [if_pos hact]
          exact Or.inr (Or.inr (Or.inl rfl))
        · rw [if_neg hact]
          by_cases hexp : now > li.expire_time
          · rw [if_pos hexp]
            exact Or.inr (Or.inr (Or.inr (Or.inl ⟨_, rfl⟩)))
          · rw [if_neg hexp]
            cases hbs : bindStep db lk mid li now with
            | reject n m => exact Or.inr (Or.inr (Or.inr (Or.inr (Or.inl ⟨n, m, rfl⟩))))
            | proceed db2 => exact Or.inr (Or.inr (Or.inr (Or.inr (Or.inr ⟨li.expire_time, rfl⟩))))

/-- Record stage outcomes once the record has been found. -/
lemma afterSig_found_cases (fmtDate : Int → String) (u k : Bool) (ip lk mid : String)
    (now : Int) (db : List LicenseRecord) (logs : List VerifyLogEntry) (lf : Bool)
    (li : LicenseRecord)
    (hfind : db.find? (fun r => r.license_key == lk) = some li) :
    (afterSig fmtDate u k ip lk mid now (some db) logs lf).1 = disabledVerdict ∨
    (afterSig fmtDate u k ip lk mid now (some db) logs lf).1
      = expiredVerdict (fmtDate li.expire_time) ∨
    (∃ n m, (afterSig fmtDate u k ip lk mid now (some db) logs lf).1 = quotaVerdict n m) ∨
    (afterSig fmtDate u k ip lk mid now (some db) logs lf).1
      = successVerdict li.expire_time now := by
  simp only [afterSig, hfind]
  by_cases hact : li.is_active.getD false = false
  · rw [if_pos hact]
    exact Or.inl rfl
  · rw [if_neg hact]
    by_cases hexp : now > li.expire_time
    · rw [if_pos hexp]
      exact Or.inr (Or.inl rfl)
    · rw [if_neg hexp]
      cases hbs : bindStep db lk mid li now with
      | reject n m => exact Or.inr (Or.inr (Or.inl ⟨n, m, rfl⟩))
      | proceed db2 => exact Or.inr (Or.inr (Or.inr rfl))

/-- After the replay window, no verdict has status 400. -/
lemma afterWindow_status_ne_400 (hmacHex : String → String) (fmtDate : Int → String)
    (u k : Bool) (ip lk mid : String) (t now : Int) (sig : String)
    (db? : Option (List LicenseRecord)) (logs : List VerifyLogEntry) (lf : Bool) :
    (wrap500 db? logs
      (afterWindow hmacHex fmtDate u k ip lk mid t now sig db? logs lf)).1.status ≠ 400 := by
  unfold afterWindow
  cases hv : verify_signature hmacHex lk mid t sig with
  | error e => simp [wrap500, serverErrorVerdict]
  | ok b =>
      cases b with
      | false => simp [wrap500, sigFailVerdict]
      | true =>
          show (wrap500 db? logs
            (Except.ok (afterSig fmtDate u k ip lk mid now db? logs lf))).1.status ≠ 400
          simp only [wrap500]
          rcases afterSig_verdict_cases fmtDate u k ip lk mid now db? logs lf with
            h | h | h | ⟨d, h⟩ | ⟨n, m, h⟩ | ⟨e, h⟩ <;> rw [h] <;>
            simp [misconfigVerdict, notFoundVerdict, disabledVerdict, expiredVerdict,
              quotaVerdict, successVerdict]

/-- The full handler when the binding step proceeds. -/
lemma do_POST_binding_proceed (hmacHex : String → String) (fmtDate : Int → String)
    (u k : Bool) (ip : String) (req : RawRequest) (now t : Int)
    (db : List LicenseRecord) (li : LicenseRecord)
    (logs : List VerifyLogEntry) (lf : Bool)
    (hp : pyInt req.timestamp = .ok t)
    (h1 : pyStrip req.license_key ≠ "") (h2 : pyStrip req.machine_id ≠ "")
    (h3 : req.signature ≠ "") (hwin : ¬ |now - t| > 300)
    (hver : verify_signature hmacHex (pyStrip req.license_key) (pyStrip req.machine_id) t
      req.signature = .ok true)
    (hfind : db.find? (fun r => r.license_key == pyStrip req.license_key) = some li)
    (hact : li.is_active.getD false = true) (hexp : ¬ now > li.expire_time)
    (db2 : List LicenseRecord)
    (hbs : bindStep db (pyStrip req.license_key) (pyStrip req.machine_id) li now
      = .proceed db2) :
    do_POST hmacHex fmtDate u k ip req now (some db) logs lf =
      (successVerdict li.expire_time now, some db2,
        if lf then logs
        else logs ++ [{ license_key := pyStrip req.license_key,
                        machine_id := pyStrip req.machine_id,
                        verify_time := now, ip_address := ip }]) := by
  rw [do_POST_binding hmacHex fmtDate u k ip req now t db li logs lf hp h1 h2 h3 hwin hver
    hfind hact hexp, hbs]

/-- The full handler when the binding step rejects on the device quota. -/
lemma do_POST_binding_reject (hmacHex : String → String) (fmtDate : Int → String)
    (u k : Bool) (ip : String) (req : RawRequest) (now t : Int)
    (db : List LicenseRecord) (li : LicenseRecord)
    (logs : List VerifyLogEntry) (lf : Bool)
    (hp : pyInt req.timestamp = .ok t)
    (h1 : pyStrip req.license_key ≠ "") (h2 : pyStrip req.machine_id ≠ "")
    (h3 : req.signature ≠ "") (hwin : ¬ |now - t| > 300)
    (hver : verify_signature hmacHex (pyStrip req.license_key) (pyStrip req.machine_id) t
      req.signature = .ok true)
    (hfind : db.find? (fun r => r.license_key == pyStrip req.license_key) = some li)
    (hact : li.is_active.getD false = true) (hexp : ¬ now > li.expire_time)
    (n : Nat) (m : Int)
    (hbs : bindStep db (pyStrip req.license_key) (pyStrip req.machine_id) li now
      = .reject n m) :
    do_POST hmacHex fmtDate u k ip req now (some db) logs lf =
      (quotaVerdict n m, some db, logs) := by
  rw [do_POST_binding hmacHex fmtDate u k ip req now t db li logs lf hp h1 h2 h3 hwin hver
    hfind hact hexp, hbs]

/-- The full handler on an expired record. -/
lemma do_POST_expired (hmacHex : String → String) (fmtDate : Int → String)
    (u k : Bool) (ip : String) (req : RawRequest) (now t : Int)
    (db : List LicenseRecord) (li : LicenseRecord)
    (logs : List VerifyLogEntry) (lf : Bool)
    (hp : pyInt req.timestamp = .ok t)
    (h1 : pyStrip req.license_key ≠ "") (h2 : pyStrip req.machine_id ≠ "")
    (h3 : req.signature ≠ "") (hwin : ¬ |now - t| > 300)
    (hver : verify_signature hmacHex (pyStrip req.license_key) (pyStrip req.machine_id) t
      req.signature = .ok true)
    (hfind : db.find? (fun r => r.license_key == pyStrip req.license_key) = some li)
    (hact : li.is_active.getD false = true) (hexp : now > li.expire_time) :
    do_POST hmacHex fmtDate u k ip req now (some db) logs lf =
      (expiredVerdict (fmtDate li.expire_time), some db, logs) := by
  rw [do_POST_afterSig hmacHex fmtDate u k ip req now t (some db) logs lf hp h1 h2 h3 hwin hver]
  simp only [afterSig, hfind]
  rw [if_neg (by simp [hact]), if_pos hexp]

/-- The full handler when the store client is unavailable. -/
lemma do_POST_misconfig (hmacHex : String → String) (fmtDate : Int → String)
    (u k : Bool) (ip : String) (req : RawRequest) (now t : Int)
    (logs : List VerifyLogEntry) (lf : Bool)
    (hp : pyInt req.timestamp = .ok t)
    (h1 : pyStrip req.license_key ≠ "") (h2 : pyStrip req.machine_id ≠ "")
    (h3 : req.signature ≠ "") (hwin : ¬ |now - t| > 300)
    (hver : verify_signature hmacHex (pyStrip req.license_key) (pyStrip req.machine_id) t
      req.signature = .ok true) :
    do_POST hmacHex fmtDate u k ip req now none logs lf =
      (misconfigVerdict u k, none, logs) := by
  rw [do_POST_afterSig hmacHex fmtDate u k ip req now t none logs lf hp h1 h2 h3 hwin hver]
  rfl

/-- Quota preservation at the level of the full handler: under the invariant,
key uniqueness and a comma-free requesting machine id, any table produced by
the handler still respects every record's quota. -/
lemma do_POST_quota_preserved (hmacHex : String → String) (fmtDate : Int → String)
    (u k : Bool) (ip : String) (req : RawRequest) (now : Int)
    (db : List LicenseRecord) (logs : List VerifyLogEntry) (lf : Bool)
    (hinv : ∀ r ∈ db, ((boundOf r).length : Int) ≤ maxDevicesOf r ∧ 1 ≤ maxDevicesOf r)
    (huniq : ∀ a ∈ db, ∀ b ∈ db, a.license_key = b.license_key → a = b)
    (hmid : ',' ∉ (pyStrip req.machine_id).data) :
    ∀ dbA, (do_POST hmacHex fmtDate u k ip req now (some db) logs lf).2.1 = some dbA →
      ∀ r ∈ dbA, ((boundOf r).length : Int) ≤ maxDevicesOf r := by
  intro dbA hA r hr
  cases hp : pyInt req.timestamp with
  | error e =>
      rw [do_POST_int_error hmacHex fmtDate u k ip req now (some db) logs lf e hp] at hA
      simp only at hA
      injection hA with hA
      subst hA
      exact (hinv r hr).1
  | ok t =>
      by_cases hsh : pyStrip req.license_key = "" ∨ pyStrip req.machine_id = "" ∨ req.signature = ""
      · rw [do_POST_incomplete hmacHex fmtDate u k ip req now t (some db) logs lf hp hsh] at hA
        simp only at hA
        injection hA with hA
        subst hA
        exact (hinv r hr).1
      · push_neg at hsh
        obtain ⟨h1, h2, h3⟩ := hsh
        by_cases hwin : |now - t| > 300
        · rw [do_POST_replay hmacHex fmtDate u k ip req now t (some db) logs lf
            hp h1 h2 h3 hwin] at hA
          simp only at hA
          injection hA with hA
          subst hA
          exact (hinv r hr).1
        · cases hv : verify_signature hmacHex (pyStrip req.license_key)
            (pyStrip req.machine_id) t req.signature with
          | error e =>
              rw [do_POST_sig_error hmacHex fmtDate u k ip req now t (some db) logs lf e
                hp h1 h2 h3 hwin hv] at hA
              simp only at hA
              injection hA with hA
              subst hA
              exact (hinv r hr).1
          | ok b =>
              cases b with
              | false =>
                  rw [do_POST_sigfail hmacHex fmtDate u k ip req now t (some db) logs lf
                    hp h1 h2 h3 hwin hv] at hA
                  simp only at hA
                  injection hA with hA
                  subst hA
                  exact (hinv r hr).1
              | true =>
                  rw [do_POST_afterSig hmacHex fmtDate u k ip req now t (some db) logs lf
                    hp h1 h2 h3 hwin hv] at hA
                  cases hf : db.find? (fun r2 => r2.license_key == pyStrip req.license_key) with
                  | none =>
                      simp only [afterSig, hf] at hA
                      injection hA with hA
                      subst hA
                      exact (hinv r hr).1
                  | some li =>
                      simp only [afterSig, hf] at hA
                      by_cases hact : li.is_active.getD false = false
                      · rw [if_pos hact] at hA
                        injection hA with hA
                        subst hA
                        exact (hinv r hr).1
                      · rw [if_neg hact] at hA
                        by_cases hexp : now > li.expire_time
                        · rw [if_pos hexp] at hA
                          injection hA with hA
                          subst hA
                          exact (hinv r hr).1
                        · rw [if_neg hexp] at hA
                          cases hbs : bindStep db (pyStrip req.license_key)
                              (pyStrip req.machine_id) li now with
                          | reject n m =>
                              rw [hbs] at hA
                              simp only at hA
                              injection hA with hA
                              subst hA
                              exact (hinv r hr).1
                          | proceed db2 =>
                              rw [hbs] at hA
                              simp only at hA
                              injection hA with hA
                              subst hA
                              exact quota_inv_of_bindStep db (pyStrip req.license_key)
                                (pyStrip req.machine_id) li now hinv huniq hmid h2
                                (pyStrip_idem req.machine_id) hf db2 hbs r hr

/-- The verdict and the licenses table of the record stage do not depend on
whether the audit-log insert fails. -/
lemma afterSig_log_independent (fmtDate : Int → String) (u k : Bool) (ip lk mid : String)
    (now : Int) (db? : Option (List LicenseRecord)) (logs : List VerifyLogEntry) :
    (afterSig fmtDate u k ip lk mid now db? logs true).1
      = (afterSig fmtDate u k ip lk mid now db? logs false).1 ∧
    (afterSig fmtDate u k ip lk mid now db? logs true).2.1
      = (afterSig fmtDate u k ip lk mid now db? logs false).2.1 := by
  rcases db? with _ | db
  · exact ⟨rfl, rfl⟩
  · cases hf : db.find? (fun r => r.license_key == lk) with
    | none =>
        constructor
        · simp only [afterSig, hf]
        · simp only [afterSig, hf]
    | some li =>
        simp only [afterSig, hf]
        by_cases hact : li.is_active.getD false = false
        · rw [if_pos hact, if_pos hact]
          exact ⟨rfl, rfl⟩
        · rw [if_neg hact, if_neg hact]
          by_cases hexp : now > li.expire_time
          · rw [if_pos hexp, if_pos hexp]
            exact ⟨rfl, rfl⟩
          · rw [if_neg hexp, if_neg hexp]
            cases hbs : bindStep db lk mid li now with
            | reject n m => exact ⟨rfl, rfl⟩
            | proceed db2 => exact ⟨rfl, rfl⟩

/-! ## Concrete fixtures for witnesses and counterexamples -/

/-- Constant hex digest standing in for the HMAC primitive in concrete runs
(its output is ASCII, as a real hex digest is). -/
def hmacC : String → String := fun _ => "aa"

/-- Constant date renderer for concrete runs. -/
def fmtC : Int → String := fun _ => "2020-01-01"

/-- An active record with quota one and no bound machine. -/
def recC : LicenseRecord :=
  { license_key := "L", is_active := some true, expire_time := 1000,
    machine_id := none, max_devices := some 1, activated_at := none }

/-- An active record with quota one, already bound to machine M1. -/
def recW : LicenseRecord :=
  { license_key := "L", is_active := some true, expire_time := 1000,
    machine_id := some "M1", max_devices := some 1, activated_at := some 1 }

/-- A correctly signed request whose machine id contains a comma. -/
def reqComma : RawRequest :=
  { license_key := "L", machine_id := "a,b", timestamp := .int 500, signature := "aa" }

/-- A correctly signed request from machine M1. -/
def reqM1 : RawRequest :=
  { license_key := "L", machine_id := "M1", timestamp := .int 500, signature := "aa" }

/-- A correctly signed request from machine M2. -/
def reqM2 : RawRequest :=
  { license_key := "L", machine_id := "M2", timestamp := .int 500, signature := "aa" }

/-- A correctly signed request from machine M1 timestamped at the expiry
boundary of `recW`. -/
def reqM1e : RawRequest :=
  { license_key := "L", machine_id := "M1", timestamp := .int 1000, signature := "aa" }

/-- A request with a wrong but ASCII signature. -/
def reqZZ : RawRequest :=
  { license_key := "L", machine_id := "M", timestamp := .int 100, signature := "zz" }

/-- A request with a wrong non-ASCII signature. -/
def reqBadSig : RawRequest :=
  { license_key := "L", machine_id := "M", timestamp := .int 100, signature := "签" }

/-- A request with an empty license key and a non-integer timestamp. -/
def reqC4bad : RawRequest :=
  { license_key := "", machine_id := "M", timestamp := .str "abc", signature := "x" }

/-- A well-shaped request with a non-integer timestamp. -/
def reqFault1 : RawRequest :=
  { license_key := "L", machine_id := "M", timestamp := .str "xx", signature := "s" }

/-- Like `reqFault1` but with a different bad timestamp literal. -/
def reqFault2 : RawRequest :=
  { license_key := "L", machine_id := "M", timestamp := .str "yy", signature := "s" }

/-- A correctly signed request with no timestamp field. -/
def reqNoTs : RawRequest :=
  { license_key := "L", machine_id := "M", timestamp := .absent, signature := "aa" }

/-! ## C3 -/

/-- C3: after shape validation passed with integer timestamp `t`, the handler
rejects with status 400 exactly when `|now - t| > 300`; when it rejects, the
verdict is the replay verdict and nothing else runs; for `|now - t| ≤ 300`
(the boundary included) it continues to the signature check. -/
theorem C3_replay_window (hmacHex : String → String) (fmtDate : Int → String)
    (u k : Bool) (ip : String) (req : RawRequest) (now t : Int)
    (db? : Option (List LicenseRecord)) (logs : List VerifyLogEntry) (lf : Bool)
    (hp : pyInt req.timestamp = .ok t)
    (h1 : pyStrip req.license_key ≠ "") (h2 : pyStrip req.machine_id ≠ "")
    (h3 : req.signature ≠ "") :
    ((do_POST hmacHex fmtDate u k ip req now db? logs lf).1.status = 400 ↔ |now - t| > 300)
    ∧ (|now - t| > 300 →
        do_POST hmacHex fmtDate u k ip req now db? logs lf
          = (replayVerdict |now - t|, db?, logs)
        ∧ (replayVerdict |now - t|).valid = false ∧ (replayVerdict |now - t|).status = 400)
    ∧ (|now - t| ≤ 300 →
        do_POST hmacHex fmtDate u k ip req now db? logs lf =
          wrap500 db? logs (afterWindow hmacHex fmtDate u k ip (pyStrip req.license_key)
            (pyStrip req.machine_id) t now req.signature db? logs lf)) := by
  refine ⟨⟨?_, ?_⟩, ?_, ?_⟩
  · intro h400
    by_contra hgt
    rw [do_POST_afterWindow hmacHex fmtDate u k ip req now t db? logs lf hp h1 h2 h3 hgt]
      at h400
    exact afterWindow_status_ne_400 hmacHex fmtDate u k ip (pyStrip req.license_key)
      (pyStrip req.machine_id) t now req.signature db? logs lf h400
  · intro hgt
    rw [do_POST_replay hmacHex fmtDate u k ip req now t db? logs lf hp h1 h2 h3 hgt]
    rfl
  · intro hgt
    exact ⟨do_POST_replay hmacHex fmtDate u k ip req now t db? logs lf hp h1 h2 h3 hgt,
      rfl, rfl⟩
  · intro hle
    exact do_POST_afterWindow hmacHex fmtDate u k ip req now t db? logs lf hp h1 h2 h3
      (not_lt.mpr hle)

/-- Witness for C3 at the inclusive boundary `|now - t| = 300`. -/
theorem C3_replay_window_witness :
    ¬ ((do_POST hmacC fmtC true true "ip" reqM1 800 (some [recW]) [] false).1.status = 400)
    ∧ do_POST hmacC fmtC true true "ip" reqM1 800 (some [recW]) [] false =
        wrap500 (some [recW]) []
          (afterWindow hmacC fmtC true true "ip" "L" "M1" 500 800 "aa"
            (some [recW]) [] false)
    ∧ do_POST hmacC fmtC true true "ip" reqM1 900 (some [recW]) [] false
        = (replayVerdict 400, some [recW], []) := by
  have h800 := C3_replay_window hmacC fmtC true true "ip" reqM1 800 500 (some [recW]) [] false
    rfl (by decide) (by decide) (by decide)
  have h900 := C3_replay_window hmacC fmtC true true "ip" reqM1 900 500 (some [recW]) [] false
    rfl (by decide) (by decide) (by decide)
  refine ⟨?_, ?_, ?_⟩
  · intro h
    have := h800.1.mp h
    revert this
    decide
  · exact h800.2.2 (by decide)
  · have := (h900.2.1 (by decide)).1
    simpa using this

/-! ## C4 -/

/-- C4 counterexample: a request with an empty (after trimming) license key
and a non-integer timestamp.  The claim demands verdict 400 "incomplete
parameters"; the code raises in `int(...)` before shape validation and the
broad handler returns 500 with the exception text. -/
theorem C4_counterexample :
    pyStrip reqC4bad.license_key = "" ∧
    (do_POST hmacC fmtC true true "ip" reqC4bad 100 (some []) [] false).1.status ≠ 400 ∧
    (do_POST hmacC fmtC true true "ip" reqC4bad 100 (some []) [] false).1
      ≠ incompleteVerdict ∧
    (do_POST hmacC fmtC true true "ip" reqC4bad 100 (some []) [] false).1
      = serverErrorVerdict "invalid literal for int() with base 10: 'abc'" := by
  decide

/-- C4 (amended): when the timestamp field is absent or parses as an integer,
an empty (after trimming) license key or machine id, or an empty signature
(the signature is not trimmed), yields the terminal 400 "incomplete
parameters" verdict with no state change; a timestamp that does not parse as
an integer instead raises before shape validation and yields the generic 500
verdict. -/
theorem C4_shape_validation (hmacHex : String → String) (fmtDate : Int → String)
    (u k : Bool) (ip : String) (req : RawRequest) (now : Int)
    (db? : Option (List LicenseRecord)) (logs : List VerifyLogEntry) (lf : Bool) :
    (∀ t, pyInt req.timestamp = .ok t →
      (pyStrip req.license_key = "" ∨ pyStrip req.machine_id = "" ∨ req.signature = "") →
      do_POST hmacHex fmtDate u k ip req now db? logs lf = (incompleteVerdict, db?, logs)
      ∧ incompleteVerdict.valid = false ∧ incompleteVerdict.status = 400)
    ∧ (∀ e, pyInt req.timestamp = .error e →
      do_POST hmacHex fmtDate u k ip req now db? logs lf = (serverErrorVerdict e, db?, logs)
      ∧ (serverErrorVerdict e).valid = false ∧ (serverErrorVerdict e).status = 500) := by
  constructor
  · intro t hp h
    exact ⟨do_POST_incomplete hmacHex fmtDate u k ip req now t db? logs lf hp h, rfl, rfl⟩
  · intro e hp
    exact ⟨do_POST_int_error hmacHex fmtDate u k ip req now db? logs lf e hp, rfl, rfl⟩

/-- Witness for C4 on both branches of the amended claim. -/
theorem C4_shape_validation_witness :
    do_POST hmacC fmtC true true "ip"
        { license_key := " ", machine_id := "M", timestamp := TsVal.int 100, signature := "x" }
        100 (some []) [] false = (incompleteVerdict, some [], []) ∧
    do_POST hmacC fmtC true true "ip" reqC4bad 100 (some []) [] false
      = (serverErrorVerdict "invalid literal for int() with base 10: 'abc'", some [], []) := by
  have h1 := (C4_shape_validation hmacC fmtC true true "ip"
    { license_key := " ", machine_id := "M", timestamp := TsVal.int 100, signature := "x" }
    100 (some []) [] false).1 100 rfl (Or.inl (by decide))
  have h2 := (C4_shape_validation hmacC fmtC true true "ip" reqC4bad
    100 (some []) [] false).2 "invalid literal for int() with base 10: 'abc'" rfl
  exact ⟨h1.1, h2.1⟩

/-! ## C10 -/

/-- C10: a well-formed body with no timestamp field defaults the timestamp to
0, so for `now > 300` the request is rejected by the replay window (status
400, "invalid request time" message), not by shape validation, even with the
three string fields present and non-empty. -/
theorem C10_absent_timestamp (hmacHex : String → String) (fmtDate : Int → String)
    (u k : Bool) (ip : String) (req : RawRequest) (now : Int)
    (db? : Option (List LicenseRecord)) (logs : List VerifyLogEntry) (lf : Bool)
    (habs : req.timestamp = .absent)
    (h1 : pyStrip req.license_key ≠ "") (h2 : pyStrip req.machine_id ≠ "")
    (h3 : req.signature ≠ "") (hnow : now > 300) :
    do_POST hmacHex fmtDate u k ip req now db? logs lf = (replayVerdict now, db?, logs)
    ∧ (replayVerdict now).status = 400 ∧ (replayVerdict now).valid = false
    ∧ replayVerdict now ≠ incompleteVerdict := by
  have hp : pyInt req.timestamp = .ok 0 := by rw [habs]; rfl
  have habs0 : |now - 0| = now := by
    rw [sub_zero, abs_of_nonneg (by omega)]
  have hgt : |now - 0| > 300 := by rw [habs0]; exact hnow
  have hrw := do_POST_replay hmacHex fmtDate u k ip req now 0 db? logs lf hp h1 h2 h3 hgt
  rw [habs0] at hrw
  refine ⟨hrw, rfl, rfl, ?_⟩
  intro hcon
  have hm := congrArg Verdict.message hcon
  simp only [replayVerdict, incompleteVerdict] at hm
  have hlen := congrArg (fun s => s.data.length) hm
  simp only [data_append, List.length_append] at hlen
  have e1 : ("请求时间无效（时间差" : String).data.length = 10 := rfl
  have e2 : ("秒）" : String).data.length = 2 := rfl
  have e3 : ("参数不完整" : String).data.length = 5 := rfl
  rw [e1, e2, e3] at hlen
  omega

/-- Witness for C10: all three string fields present, timestamp absent,
evaluated at time 301. -/
theorem C10_absent_timestamp_witness :
    do_POST hmacC fmtC true true "ip" reqNoTs 301 (some [recW]) [] false
      = (replayVerdict 301, some [recW], [])
    ∧ replayVerdict 301 ≠ incompleteVerdict := by
  have h := C10_absent_timestamp hmacC fmtC true true "ip" reqNoTs 301 (some [recW]) [] false
    rfl (by decide) (by decide) (by decide) (by decide)
  exact ⟨h.1, h.2.2.2⟩

/-! ## C1 -/

/-- C1 counterexample: a request that passes shape validation and the replay
window, whose signature differs from the expected digest but contains a
non-ASCII character.  The claim demands the 403 signature-failure verdict;
`hmac.compare_digest` raises `TypeError` on non-ASCII strings, so the broad
handler returns 500 instead. -/
theorem C1_counterexample :
    pyStrip reqBadSig.license_key ≠ "" ∧ pyStrip reqBadSig.machine_id ≠ "" ∧
    reqBadSig.signature ≠ "" ∧ |(100 : Int) - 100| ≤ 300 ∧
    reqBadSig.signature ≠ hmacC (sigMessage "L" "M" 100) ∧
    (do_POST hmacC fmtC true true "ip" reqBadSig 100 (some []) [] false).1.status = 500 ∧
    (do_POST hmacC fmtC true true "ip" reqBadSig 100 (some []) [] false).1
      ≠ sigFailVerdict := by
  decide

/-- C1 (amended): the handler recomputes the digest over
`licenseKey ++ machineId ++ decimal timestamp`; the correct digest passes,
any differing ASCII signature is rejected with the terminal 403 verdict, and
a non-ASCII signature instead raises inside `compare_digest` and surfaces as
the generic 500 verdict. -/
theorem C1_signature_check (hmacHex : String → String)
    (hA : ∀ m, isAsciiStr (hmacHex m) = true) :
    (∀ lk mid t, verify_signature hmacHex lk mid t (hmacHex (sigMessage lk mid t)) = .ok true)
    ∧ (∀ lk mid t sig, isAsciiStr sig = true → sig ≠ hmacHex (sigMessage lk mid t) →
        verify_signature hmacHex lk mid t sig = .ok false)
    ∧ (∀ (fmtDate : Int → String) (u k : Bool) (ip : String) (req : RawRequest) (now t : Int)
        (db? : Option (List LicenseRecord)) (logs : List VerifyLogEntry) (lf : Bool),
        pyInt req.timestamp = .ok t →
        pyStrip req.license_key ≠ "" → pyStrip req.machine_id ≠ "" → req.signature ≠ "" →
        ¬ |now - t| > 300 →
        verify_signature hmacHex (pyStrip req.license_key) (pyStrip req.machine_id) t
          req.signature = .ok false →
        do_POST hmacHex fmtDate u k ip req now db? logs lf = (sigFailVerdict, db?, logs))
    ∧ (sigFailVerdict.valid = false ∧ sigFailVerdict.status = 403)
    ∧ (∀ lk mid t sig, isAsciiStr sig = false →
        verify_signature hmacHex lk mid t sig
          = .error "comparing strings with non-ASCII characters is not supported") := by
  refine ⟨?_, ?_, ?_, ⟨rfl, rfl⟩, ?_⟩
  · intro lk mid t
    unfold verify_signature compare_digest
    rw [if_pos (by simp [hA])]
    simp
  · intro lk mid t sig hsig hne
    unfold verify_signature compare_digest
    rw [if_pos (by simp [hA, hsig])]
    simp only [Except.ok.injEq]
    exact beq_eq_false_iff_ne.mpr (Ne.symm hne)
  · intro fmtDate u k ip req now t db? logs lf hp h1 h2 h3 hwin hver
    exact do_POST_sigfail hmacHex fmtDate u k ip req now t db? logs lf hp h1 h2 h3 hwin hver
  · intro lk mid t sig hsig
    unfold verify_signature compare_digest
    rw [if_neg (by simp [hA, hsig])]

/-- Witness for C1: the correct digest passes, a wrong ASCII digest produces
the 403 verdict, and a non-ASCII one raises. -/
theorem C1_signature_check_witness :
    verify_signature hmacC "L" "M" 100 (hmacC (sigMessage "L" "M" 100)) = .ok true ∧
    verify_signature hmacC "L" "M" 100 "zz" = .ok false ∧
    do_POST hmacC fmtC true true "ip" reqZZ 100 (some []) [] false
      = (sigFailVerdict, some [], []) ∧
    verify_signature hmacC "L" "M" 100 "签"
      = .error "comparing strings with non-ASCII characters is not supported" := by
  have h := C1_signature_check hmacC (fun m => rfl)
  refine ⟨h.1 "L" "M" 100, ?_, ?_, h.2.2.2.2 "L" "M" 100 "签" (by decide)⟩
  · exact h.2.1 "L" "M" 100 "zz" (by decide) (by decide)
  · exact h.2.2.1 fmtC true true "ip" reqZZ 100 100 (some []) [] false rfl
      (by decide) (by decide) (by decide) (by decide)
      (h.2.1 "L" "M" 100 "zz" (by decide) (by decide))

/-! ## C8 -/

/-- C8: the verdict and the resulting licenses table are identical whether
the audit-log insert raises or succeeds; a log failure never aborts the
request and never changes the response. -/
theorem C8_log_failure_isolated (hmacHex : String → String) (fmtDate : Int → String)
    (u k : Bool) (ip : String) (req : RawRequest) (now : Int)
    (db? : Option (List LicenseRecord)) (logs : List VerifyLogEntry) :
    (do_POST hmacHex fmtDate u k ip req now db? logs true).1
      = (do_POST hmacHex fmtDate u k ip req now db? logs false).1 ∧
    (do_POST hmacHex fmtDate u k ip req now db? logs true).2.1
      = (do_POST hmacHex fmtDate u k ip req now db? logs false).2.1 := by
  cases hp : pyInt req.timestamp with
  | error e =>
      rw [do_POST_int_error hmacHex fmtDate u k ip req now db? logs true e hp,
        do_POST_int_error hmacHex fmtDate u k ip req now db? logs false e hp]
      exact ⟨rfl, rfl⟩
  | ok t =>
      by_cases hsh : pyStrip req.license_key = "" ∨ pyStrip req.machine_id = ""
          ∨ req.signature = ""
      · rw [do_POST_incomplete hmacHex fmtDate u k ip req now t db? logs true hp hsh,
          do_POST_incomplete hmacHex fmtDate u k ip req now t db? logs false hp hsh]
        exact ⟨rfl, rfl⟩
      · push_neg at hsh
        obtain ⟨h1, h2, h3⟩ := hsh
        by_cases hwin : |now - t| > 300
        · rw [do_POST_replay hmacHex fmtDate u k ip req now t db? logs true hp h1 h2 h3 hwin,
            do_POST_replay hmacHex fmtDate u k ip req now t db? logs false hp h1 h2 h3 hwin]
          exact ⟨rfl, rfl⟩
        · rw [do_POST_afterWindow hmacHex fmtDate u k ip req now t db? logs true
            hp h1 h2 h3 hwin,
            do_POST_afterWindow hmacHex fmtDate u k ip req now t db? logs false
            hp h1 h2 h3 hwin]
          unfold afterWindow
          cases hv : verify_signature hmacHex (pyStrip req.license_key)
              (pyStrip req.machine_id) t req.signature with
          | error e => exact ⟨rfl, rfl⟩
          | ok b =>
              cases b with
              | false => exact ⟨rfl, rfl⟩
              | true =>
                  exact afterSig_log_independent fmtDate u k ip (pyStrip req.license_key)
                    (pyStrip req.machine_id) now db? logs

/-! ## C9 -/

/-- C9 counterexample: two requests that differ only in the internal fault
detail (the unparsable timestamp literal) receive different client-facing
500 messages, and the misconfiguration 500 body carries the configuration
presence booleans in its `debug` object — so the 500 message is not generic
and internal detail is not confined to server-side logs. -/
theorem C9_counterexample :
    (do_POST hmacC fmtC true true "ip" reqFault1 100 (some []) [] false).1.status = 500 ∧
    (do_POST hmacC fmtC true true "ip" reqFault2 100 (some []) [] false).1.status = 500 ∧
    (do_POST hmacC fmtC true true "ip" reqFault1 100 (some []) [] false).1.message
      ≠ (do_POST hmacC fmtC true true "ip" reqFault2 100 (some []) [] false).1.message ∧
    (do_POST hmacC fmtC true false "ip" reqM1 500 none [] false).1.status = 500 ∧
    (do_POST hmacC fmtC true false "ip" reqM1 500 none [] false).1.debug
      = some (true, false) := by
  decide

/-- C9 (amended): an unavailable or misconfigured store yields the 500
misconfiguration verdict, whose body exposes the configuration presence
booleans in a `debug` object; an unexpected internal fault yields a 500
verdict whose message embeds the exception text after "服务器错误: ". -/
theorem C9_infrastructure_500 (hmacHex : String → String) (fmtDate : Int → String)
    (u k : Bool) (ip : String) (req : RawRequest) (now t : Int)
    (logs : List VerifyLogEntry) (lf : Bool)
    (hp : pyInt req.timestamp = .ok t)
    (h1 : pyStrip req.license_key ≠ "") (h2 : pyStrip req.machine_id ≠ "")
    (h3 : req.signature ≠ "") (hwin : ¬ |now - t| > 300)
    (hver : verify_signature hmacHex (pyStrip req.license_key) (pyStrip req.machine_id) t
      req.signature = .ok true) :
    (do_POST hmacHex fmtDate u k ip req now none logs lf = (misconfigVerdict u k, none, logs))
    ∧ ((misconfigVerdict u k).valid = false ∧ (misconfigVerdict u k).status = 500
        ∧ (misconfigVerdict u k).debug = some (u, k))
    ∧ (∀ (req2 : RawRequest) (db? : Option (List LicenseRecord)) (e : String),
        pyInt req2.timestamp = .error e →
        do_POST hmacHex fmtDate u k ip req2 now db? logs lf = (serverErrorVerdict e, db?, logs))
    ∧ (∀ e, (serverErrorVerdict e).valid = false ∧ (serverErrorVerdict e).status = 500
        ∧ (serverErrorVerdict e).message = "服务器错误: " ++ e) := by
  refine ⟨?_, ⟨rfl, rfl, rfl⟩, ?_, fun e => ⟨rfl, rfl, rfl⟩⟩
  · exact do_POST_misconfig hmacHex fmtDate u k ip req now t logs lf hp h1 h2 h3 hwin hver
  · intro req2 db? e hp2
    exact do_POST_int_error hmacHex fmtDate u k ip req2 now db? logs lf e hp2

/-- Witness for C9: a missing-key configuration with a valid request, and a
concrete internal fault. -/
theorem C9_infrastructure_500_witness :
    do_POST hmacC fmtC true false "ip" reqM1 500 none [] false
      = (misconfigVerdict true false, none, []) ∧
    (misconfigVerdict true false).debug = some (true, false) ∧
    do_POST hmacC fmtC true false "ip" reqFault1 500 (some []) [] false
      = (serverErrorVerdict "invalid literal for int() with base 10: 'xx'", some [], []) := by
  have h := C9_infrastructure_500 hmacC fmtC true false "ip" reqM1 500 500 [] false
    rfl (by decide) (by decide) (by decide) (by decide) rfl
  exact ⟨h.1, h.2.1.2.2, h.2.2.1 reqFault1 (some []) _ rfl⟩

/-! ## C6 -/

/-- C6: a request from an already-bound machine is accepted and issues no
binding mutation — the stored licenses table after the call is exactly the
table before it, so repeated calls never change `boundMachines` and never
append the machine a second time. -/
theorem C6_idempotent_rebind (hmacHex : String → String) (fmtDate : Int → String)
    (u k : Bool) (ip : String) (req : RawRequest) (now t : Int)
    (db : List LicenseRecord) (li : LicenseRecord)
    (logs : List VerifyLogEntry) (lf : Bool)
    (hp : pyInt req.timestamp = .ok t)
    (h1 : pyStrip req.license_key ≠ "") (h2 : pyStrip req.machine_id ≠ "")
    (h3 : req.signature ≠ "") (hwin : ¬ |now - t| > 300)
    (hver : verify_signature hmacHex (pyStrip req.license_key) (pyStrip req.machine_id) t
      req.signature = .ok true)
    (hfind : db.find? (fun r => r.license_key == pyStrip req.license_key) = some li)
    (hact : li.is_active.getD false = true) (hexp : ¬ now > li.expire_time)
    (hmem : pyStrip req.machine_id ∈ boundOf li) :
    (do_POST hmacHex fmtDate u k ip req now (some db) logs lf).2.1 = some db
    ∧ (do_POST hmacHex fmtDate u k ip req now (some db) logs lf).1
        = successVerdict li.expire_time now
    ∧ (do_POST hmacHex fmtDate u k ip req now (some db) logs lf).1.valid = true := by
  have h := do_POST_binding_proceed hmacHex fmtDate u k ip req now t db li logs lf
    hp h1 h2 h3 hwin hver hfind hact hexp db
    (bindStep_mem db (pyStrip req.license_key) (pyStrip req.machine_id) li now hmem)
  rw [h]
  exact ⟨rfl, rfl, rfl⟩

/-- Witness for C6: machine M1 re-verifying against the record it is bound
to; the table is returned unchanged. -/
theorem C6_idempotent_rebind_witness :
    (do_POST hmacC fmtC true true "ip" reqM1 500 (some [recW]) [] false).2.1 = some [recW]
    ∧ (do_POST hmacC fmtC true true "ip" reqM1 500 (some [recW]) [] false).1
        = successVerdict 1000 500 := by
  have h := C6_idempotent_rebind hmacC fmtC true true "ip" reqM1 500 500 [recW] recW [] false
    rfl (by decide) (by decide) (by decide) (by decide) rfl rfl (by decide) (by decide)
    (by decide)
  exact ⟨h.1, h.2.1⟩

/-! ## C5 -/

/-- C5 counterexample: first activation from machine id "a,b" (which contains
a comma).  All earlier checks pass and the record's bound list is empty; the
mutation stores the raw string, which decodes to the two-device list
["a", "b"], not the singleton of the requesting machine id. -/
theorem C5_counterexample :
    (do_POST hmacC fmtC true true "ip" reqComma 500 (some [recC]) [] false).1.valid = true ∧
    Option.map (List.map boundOf)
        ((do_POST hmacC fmtC true true "ip" reqComma 500 (some [recC]) [] false).2.1)
      = some [["a", "b"]] ∧
    ["a", "b"] ≠ [pyStrip reqComma.machine_id] := by
  decide

/-- C5 (amended): first activation of a record with an empty bound list
accepts the request, stores the machine id and `activatedAt = now`, and —
provided the trimmed machine id contains no comma — the record's decoded
bound set is exactly the singleton of the requesting machine id. -/
theorem C5_first_activation (hmacHex : String → String) (fmtDate : Int → String)
    (u k : Bool) (ip : String) (req : RawRequest) (now t : Int)
    (db : List LicenseRecord) (li : LicenseRecord)
    (logs : List VerifyLogEntry) (lf : Bool)
    (hp : pyInt req.timestamp = .ok t)
    (h1 : pyStrip req.license_key ≠ "") (h2 : pyStrip req.machine_id ≠ "")
    (h3 : req.signature ≠ "") (hwin : ¬ |now - t| > 300)
    (hver : verify_signature hmacHex (pyStrip req.license_key) (pyStrip req.machine_id) t
      req.signature = .ok true)
    (hfind : db.find? (fun r => r.license_key == pyStrip req.license_key) = some li)
    (hact : li.is_active.getD false = true) (hexp : ¬ now > li.expire_time)
    (hbm : li.machine_id.getD "" = "")
    (hmid : ',' ∉ (pyStrip req.machine_id).data) :
    (do_POST hmacHex fmtDate u k ip req now (some db) logs lf).1
        = successVerdict li.expire_time now
    ∧ (do_POST hmacHex fmtDate u k ip req now (some db) logs lf).2.1
        = some (activate db (pyStrip req.license_key) (pyStrip req.machine_id) now)
    ∧ (∀ r ∈ activate db (pyStrip req.license_key) (pyStrip req.machine_id) now,
        r.license_key = pyStrip req.license_key →
          r.machine_id = some (pyStrip req.machine_id) ∧ r.activated_at = some now
          ∧ boundOf r = [pyStrip req.machine_id]) := by
  have h := do_POST_binding_proceed hmacHex fmtDate u k ip req now t db li logs lf
    hp h1 h2 h3 hwin hver hfind hact hexp
    (activate db (pyStrip req.license_key) (pyStrip req.machine_id) now)
    (bindStep_empty db (pyStrip req.license_key) (pyStrip req.machine_id) li now hbm)
  refine ⟨by rw [h], by rw [h], ?_⟩
  intro r hr hkey
  obtain ⟨r0, hr0, hreq⟩ := mem_activate hr
  by_cases hk : r0.license_key == pyStrip req.license_key
  · rw [if_pos hk] at hreq
    subst hreq
    refine ⟨rfl, rfl, ?_⟩
    show parsedMachines (pyStrip req.machine_id) = [pyStrip req.machine_id]
    exact parsedMachines_singleton (pyStrip req.machine_id) h2
      (pyStrip_idem req.machine_id) hmid
  · rw [if_neg hk] at hreq
    subst hreq
    exact absurd hkey (by simpa using hk)

/-- Witness for C5: machine M1 activating the unbound record. -/
theorem C5_first_activation_witness :
    (do_POST hmacC fmtC true true "ip" reqM1 500 (some [recC]) [] false).1
      = successVerdict 1000 500
    ∧ (do_POST hmacC fmtC true true "ip" reqM1 500 (some [recC]) [] false).2.1
      = some (activate [recC] "L" "M1" 500)
    ∧ boundOf { recC with machine_id := some "M1", activated_at := some 500 } = ["M1"] := by
  have h := C5_first_activation hmacC fmtC true true "ip" reqM1 500 500 [recC] recC [] false
    rfl (by decide) (by decide) (by decide) (by decide) rfl rfl (by decide) (by decide)
    rfl (by decide)
  refine ⟨h.1, h.2.1, ?_⟩
  have h3 := h.2.2 { recC with machine_id := some "M1", activated_at := some 500 }
    (by decide) (by decide)
  exact h3.2.2

/-! ## C2 -/

/-- C2 counterexample: the record satisfies the invariant (0 bound devices,
quota 1), the request is a fully valid first activation from machine id
"a,b", and the resulting stored record decodes to 2 bound devices with quota
1 — so the engine decision does not preserve |boundMachines| ≤ maxDevices. -/
theorem C2_counterexample :
    ((boundOf recC).length : Int) ≤ maxDevicesOf recC ∧ (1 : Int) ≤ maxDevicesOf recC ∧
    (do_POST hmacC fmtC true true "ip" reqComma 500 (some [recC]) [] false).1.valid = true ∧
    Option.map (List.map (fun r => (boundOf r).length))
        ((do_POST hmacC fmtC true true "ip" reqComma 500 (some [recC]) [] false).2.1)
      = some [2] ∧
    Option.map (List.map maxDevicesOf)
        ((do_POST hmacC fmtC true true "ip" reqComma 500 (some [recC]) [] false).2.1)
      = some [1] := by
  decide

/-- C2 (amended): with unique license keys and comma-free machine ids, every
decision preserves |boundMachines| ≤ maxDevices; a record already holding
maxDevices machines rejects a new machine with the terminal 403 quota verdict
and an unchanged table, while a request from a bound machine succeeds. -/
theorem C2_device_quota (hmacHex : String → String) (fmtDate : Int → String)
    (u k : Bool) (ip : String) (req : RawRequest) (now t : Int)
    (db : List LicenseRecord) (li : LicenseRecord)
    (logs : List VerifyLogEntry) (lf : Bool)
    (hp : pyInt req.timestamp = .ok t)
    (h1 : pyStrip req.license_key ≠ "") (h2 : pyStrip req.machine_id ≠ "")
    (h3 : req.signature ≠ "") (hwin : ¬ |now - t| > 300)
    (hver : verify_signature hmacHex (pyStrip req.license_key) (pyStrip req.machine_id) t
      req.signature = .ok true)
    (hfind : db.find? (fun r => r.license_key == pyStrip req.license_key) = some li)
    (hact : li.is_active.getD false = true) (hexp : ¬ now > li.expire_time)
    (hinv : ∀ r ∈ db, ((boundOf r).length : Int) ≤ maxDevicesOf r ∧ 1 ≤ maxDevicesOf r)
    (huniq : ∀ a ∈ db, ∀ b ∈ db, a.license_key = b.license_key → a = b) :
    (∀ (hh : String → String) (fd : Int → String) (u2 k2 : Bool) (ip2 : String)
        (req2 : RawRequest) (now2 : Int) (lg2 : List VerifyLogEntry) (lf2 : Bool),
        ',' ∉ (pyStrip req2.machine_id).data →
        ∀ dbA, (do_POST hh fd u2 k2 ip2 req2 now2 (some db) lg2 lf2).2.1 = some dbA →
          ∀ r ∈ dbA, ((boundOf r).length : Int) ≤ maxDevicesOf r)
    ∧ (((boundOf li).length : Int) = maxDevicesOf li → pyStrip req.machine_id ∉ boundOf li →
        do_POST hmacHex fmtDate u k ip req now (some db) logs lf
          = (quotaVerdict (boundOf li).length (maxDevicesOf li), some db, logs)
        ∧ (quotaVerdict (boundOf li).length (maxDevicesOf li)).valid = false
        ∧ (quotaVerdict (boundOf li).length (maxDevicesOf li)).status = 403)
    ∧ (pyStrip req.machine_id ∈ boundOf li →
        (do_POST hmacHex fmtDate u k ip req now (some db) logs lf).1.valid = true
        ∧ (do_POST hmacHex fmtDate u k ip req now (some db) logs lf).1.status = 200) := by
  refine ⟨?_, ?_, ?_⟩
  · intro hh fd u2 k2 ip2 req2 now2 lg2 lf2 hmid dbA hA r hr
    exact do_POST_quota_preserved hh fd u2 k2 ip2 req2 now2 db lg2 lf2 hinv huniq hmid
      dbA hA r hr
  · intro hlen hnot
    have hbm : li.machine_id.getD "" ≠ "" := by
      intro he
      have h0 : boundOf li = [] := by rw [boundOf, he, parsedMachines_empty]
      have hmax := (hinv li (List.mem_of_find?_eq_some hfind)).2
      rw [h0] at hlen
      simp at hlen
      omega
    have hq := bindStep_quota db (pyStrip req.license_key) (pyStrip req.machine_id) li now
      hnot hbm (le_of_eq hlen.symm)
    exact ⟨do_POST_binding_reject hmacHex fmtDate u k ip req now t db li logs lf
      hp h1 h2 h3 hwin hver hfind hact hexp (boundOf li).length (maxDevicesOf li) hq,
      rfl, rfl⟩
  · intro hmem
    have h := do_POST_binding_proceed hmacHex fmtDate u k ip req now t db li logs lf
      hp h1 h2 h3 hwin hver hfind hact hexp db
      (bindStep_mem db (pyStrip req.license_key) (pyStrip req.machine_id) li now hmem)
    rw [h]
    exact ⟨rfl, rfl⟩

/-- Witness for C2: quota-one record bound to M1; machine M2 is rejected with
the quota verdict, the table is unchanged and still satisfies the quota. -/
theorem C2_device_quota_witness :
    do_POST hmacC fmtC true true "ip" reqM2 500 (some [recW]) [] false
      = (quotaVerdict 1 1, some [recW], [])
    ∧ (quotaVerdict 1 1).status = 403
    ∧ ((boundOf recW).length : Int) ≤ maxDevicesOf recW := by
  have h := C2_device_quota hmacC fmtC true true "ip" reqM2 500 500 [recW] recW [] false
    rfl (by decide) (by decide) (by decide) (by decide) rfl rfl (by decide) (by decide)
    (by decide) (by decide)
  have hq := h.2.1 (by decide) (by decide)
  have htab : (do_POST hmacC fmtC true true "ip" reqM2 500 (some [recW]) [] false).2.1
      = some [recW] := by rw [hq.1]
  have hpres := h.1 hmacC fmtC true true "ip" reqM2 500 [] false (by decide) [recW] htab
    recW (by decide)
  exact ⟨hq.1, hq.2.2, hpres⟩

/-! ## C7 -/

/-- C7: with a bound machine requesting, evaluation exactly at the expiry
time succeeds (the boundary is inclusive) while one second past it yields the
terminal 403 expiry verdict; every verdict with `valid = true` is the success
verdict, which carries status 200 and
`daysRemaining = max 0 ((expireTime - now) fdiv 86400)`. -/
theorem C7_expiry_boundary (hmacHex : String → String) (fmtDate : Int → String)
    (u k : Bool) (ip : String) (req : RawRequest) (t : Int)
    (db : List LicenseRecord) (li : LicenseRecord)
    (logs : List VerifyLogEntry) (lf : Bool)
    (hp : pyInt req.timestamp = .ok t)
    (h1 : pyStrip req.license_key ≠ "") (h2 : pyStrip req.machine_id ≠ "")
    (h3 : req.signature ≠ "")
    (hver : verify_signature hmacHex (pyStrip req.license_key) (pyStrip req.machine_id) t
      req.signature = .ok true)
    (hfind : db.find? (fun r => r.license_key == pyStrip req.license_key) = some li)
    (hact : li.is_active.getD false = true)
    (hmem : pyStrip req.machine_id ∈ boundOf li)
    (hwinA : ¬ |li.expire_time - t| > 300) (hwinB : ¬ |li.expire_time + 1 - t| > 300) :
    (do_POST hmacHex fmtDate u k ip req li.expire_time (some db) logs lf).1
        = successVerdict li.expire_time li.expire_time
    ∧ (do_POST hmacHex fmtDate u k ip req (li.expire_time + 1) (some db) logs lf).1
        = expiredVerdict (fmtDate li.expire_time)
    ∧ (expiredVerdict (fmtDate li.expire_time)).valid = false
    ∧ (expiredVerdict (fmtDate li.expire_time)).status = 403
    ∧ (∀ (now : Int) (v : Verdict) (st : Option (List LicenseRecord))
        (lg : List VerifyLogEntry),
        ¬ |now - t| > 300 →
        do_POST hmacHex fmtDate u k ip req now (some db) logs lf = (v, st, lg) →
        v.valid = true → v = successVerdict li.expire_time now)
    ∧ (∀ now : Int, (successVerdict li.expire_time now).status = 200
        ∧ (successVerdict li.expire_time now).days_remaining
            = some (max 0 ((li.expire_time - now).fdiv 86400))) := by
  refine ⟨?_, ?_, rfl, rfl, ?_, fun now => ⟨rfl, rfl⟩⟩
  · have h := do_POST_binding_proceed hmacHex fmtDate u k ip req li.expire_time t db li
      logs lf hp h1 h2 h3 hwinA hver hfind hact (lt_irrefl li.expire_time) db
      (bindStep_mem db (pyStrip req.license_key) (pyStrip req.machine_id) li
        li.expire_time hmem)
    rw [h]
  · rw [do_POST_expired hmacHex fmtDate u k ip req (li.expire_time + 1) t db li logs lf
      hp h1 h2 h3 hwinB hver hfind hact (by omega)]
  · intro now v st lg hwin heq hvalid
    rw [do_POST_afterSig hmacHex fmtDate u k ip req now t (some db) logs lf
      hp h1 h2 h3 hwin hver] at heq
    have h1v : (afterSig fmtDate u k ip (pyStrip req.license_key) (pyStrip req.machine_id)
        now (some db) logs lf).1 = v := by rw [heq]
    rcases afterSig_found_cases fmtDate u k ip (pyStrip req.license_key)
        (pyStrip req.machine_id) now db logs lf li hfind with hc | hc | ⟨n, m, hc⟩ | hc
    · rw [h1v] at hc
      rw [hc] at hvalid
      simp [disabledVerdict] at hvalid
    · rw [h1v] at hc
      rw [hc] at hvalid
      simp [expiredVerdict] at hvalid
    · rw [h1v] at hc
      rw [hc] at hvalid
      simp [quotaVerdict] at hvalid
    · rw [h1v] at hc
      exact hc

/-- Witness for C7: machine M1's record expires at 1000; evaluation at 1000
succeeds with zero days remaining, at 1001 the verdict is the expiry 403. -/
theorem C7_expiry_boundary_witness :
    (do_POST hmacC fmtC true true "ip" reqM1e 1000 (some [recW]) [] false).1
      = successVerdict 1000 1000
    ∧ (do_POST hmacC fmtC true true "ip" reqM1e 1001 (some [recW]) [] false).1
      = expiredVerdict (fmtC 1000)
    ∧ (successVerdict 1000 1000).days_remaining = some 0 := by
  have h := C7_expiry_boundary hmacC fmtC true true "ip" reqM1e 1000 [recW] recW [] false
    rfl (by decide) (by decide) (by decide) rfl rfl (by decide) (by decide)
    (by decide) (by decide)
  refine ⟨h.1, h.2.1, ?_⟩
  have hd := (h.2.2.2.2.2 1000).2
  exact hd.trans (by decide)

end LicenseServer
